import Mathlib

/-
Verification of the SSH service reconciliation pipeline (`src/conf_mode/service_ssh.py`).

The pipeline runs `verify → generate → apply` over a configuration snapshot.
We model the snapshot dictionary, the on-disk state touched by the script
(the trusted-user-CA-key file, the authorized-principals directory, the
rendered config files, the host key files) and the trace of external
`systemctl` / `ssh-keygen` invocations, and prove properties of the
verify, generate and apply functions and of the principal-directory
reconciliation code.
-/

set_option maxRecDepth 4000

namespace Ssh

/-- Python-level exceptions the script can raise: `ConfigError` (the
user-facing configuration error caught by the entry point) and `KeyError`
(a missing dictionary key, which the entry point does not catch). -/
inductive PyError where
  | configError (msg : String)
  | keyError
deriving DecidableEq

/-- A loaded CA certificate (the result of `load_certificate`): its subject,
its issuer, and its PEM encoding (`encode_certificate`).  `load_certificate`
and `encode_certificate` live in `vyos.pki`, outside this file's sources, so
a certificate is treated as an opaque record of these three attributes. -/
structure Certificate where
  subject : String
  issuer : String
  pem : String
deriving DecidableEq

/-- One entry of `ssh['pki']['ca']`: the optional `certificate` leaf.
An absent or empty (falsy) raw value is modelled as `none`. -/
structure CaEntry where
  certificate : Option Certificate
deriving DecidableEq

/-- The `rekey` subtree: `data` records whether `'data' in ssh['rekey']`. -/
structure RekeyCfg where
  data : Bool
deriving DecidableEq

/-- One entry of `ssh['trusted_user_ca_key']['bind-user']`: the optional
`principal` value, which in the config dict is either a single string or a
list of strings. -/
structure BindUserConfig where
  principal : Option (Sum String (List String))
deriving DecidableEq

/-- The `ssh['trusted_user_ca_key']` subtree. -/
structure TrustedCaCfg where
  ca_certificate : Option String
  bind_user : Option (List (String × BindUserConfig))
deriving DecidableEq

/-- The configuration snapshot produced by `get_config` for `service ssh`.
Boolean fields model key presence (`'dynamic_protection' in ssh`,
`'restart_required' in ssh`); `vrf := none` models a snapshot that lacks
the `'vrf'` key entirely. -/
structure SshConfig where
  rekey : Option RekeyCfg
  trusted_user_ca_key : Option TrustedCaCfg
  pki_ca : List (String × CaEntry)
  login_users : List String
  dynamic_protection : Bool
  restart_required : Bool
  vrf : Option (List String)
deriving DecidableEq

/-- The authorized-principals directory: whether `/etc/ssh/authorized_principals`
exists, and its regular files as (filename, contents) pairs. -/
@[ext]
structure DirState where
  dirExists : Bool
  files : List (String × String)
deriving DecidableEq

/-- The on-disk state the script mutates: host key files (presence), the
trusted-user-CA-key file (contents when present), the authorized-principals
directory, and the rendered config files (presence). -/
structure SshFs where
  keyRsa : Bool
  keyDsa : Bool
  keyEd25519 : Bool
  trustedCaFile : Option String
  principalsDir : DirState
  configFile : Bool
  sshguardConf : Bool
  sshguardWhitelist : Bool
deriving DecidableEq

/-- Systemd verbs issued through `call('systemctl ...')`. -/
inductive SystemdAct where
  | stop
  | reloadOrRestart
  | restart
deriving DecidableEq

/-- One external process invocation made by the script. -/
inductive Action where
  | systemctl (act : SystemdAct) (unitName : String)
  | sshKeygen (keyType : String)
deriving DecidableEq

def sshguardService : String := "sshguard.service"

def sshWildcard : String := "ssh@*.service"

/-- The per-VRF systemd unit `ssh@<vrf>.service`. -/
def sshUnit (vrf : String) : String := "ssh@" ++ vrf ++ ".service"

/-- Look a filename up in a directory listing (first match). -/
def lookup_file : List (String × String) → String → Option String
  | [], _ => none
  | p :: rest, name => if p.1 = name then some p.2 else lookup_file rest name

/-- `write_file(path, contents)`: overwrite the file if it exists (in place,
a directory listing keeps its order), create it otherwise. -/
def write_file : List (String × String) → String → String → List (String × String)
  | [], name, contents => [(name, contents)]
  | p :: rest, name, contents =>
    if p.1 = name then (name, contents) :: rest
    else p :: write_file rest name contents

/-- `cleanup_authorized_principals_dir(valid_users)`: if the directory does
not exist, return; otherwise delete every regular file whose name is not in
`valid_users`, and remove the directory if it is now empty. -/
def cleanup_authorized_principals_dir (valid_users : List String) (d : DirState) : DirState :=
  if d.dirExists then
    let kept := d.files.filter (fun p => decide (p.1 ∈ valid_users))
    if kept.isEmpty then { dirExists := false, files := kept }
    else { dirExists := true, files := kept }
  else d

/-- The `isinstance(principals, str)` normalisation: a bare string becomes a
one-element list. -/
def principal_list : Sum String (List String) → List String
  | .inl s => [s]
  | .inr l => l

/-- The contents written for one bind-user file:
`'\n'.join(principals) + '\n'`. -/
def render_principals (c : BindUserConfig) : String :=
  match c.principal with
  | some pr => String.intercalate "\n" (principal_list pr) ++ "\n"
  | none => "\n"

/-- `os.makedirs(authorized_principals, exist_ok=True)` guarded by
`os.path.isdir`. -/
def ensure_dir (d : DirState) : DirState :=
  if d.dirExists then d else { dirExists := true, files := d.files }

/-- The per-user body of the bind-user loop after validation: create the
directory if missing, then write the user's principal file. -/
def write_step (d : DirState) (u contents : String) : DirState :=
  let d1 := ensure_dir d
  { d1 with files := write_file d1.files u contents }

/-- The `for bind_user, bind_user_config in ...['bind-user'].items()` loop of
`handle_trusted_user_ca_key`: validate each user (it must be a system login
user and declare a principal, else `ConfigError`), create the directory if
needed, write the user's principal file, and accumulate `configured_users`.
On an error the directory state reached so far is returned unchanged, as the
exception propagates out of the loop. -/
def bind_user_loop (login_users : List String) :
    List (String × BindUserConfig) → DirState → List String →
    DirState × List String × Option PyError
  | [], d, acc => (d, acc, none)
  | (u, cfg) :: rest, d, acc =>
    if u ∈ login_users then
      match cfg.principal with
      | none => (d, acc, some (.configError "Principal not found for user"))
      | some pr =>
        let contents := String.intercalate "\n" (principal_list pr) ++ "\n"
        bind_user_loop login_users rest (write_step d u contents) (acc ++ [u])
    else (d, acc, some (.configError "User not found in system login users"))

/-- Lines 96-118 of `handle_trusted_user_ca_key`: process every bind-user,
then prune the authorized-principals directory down to the configured users.
The pruning runs only when the loop raised no exception. -/
def reconcile_bind_users (login_users : List String)
    (binds : List (String × BindUserConfig)) (d : DirState) :
    DirState × Option PyError :=
  match bind_user_loop login_users binds d [] with
  | (d1, _, some e) => (d1, some e)
  | (d1, users, none) => (cleanup_authorized_principals_dir users d1, none)

/-- Modelled from the spec: `find_chain` of `vyos.pki` is not under `src/`.
Per spec section 4.1, resolution walks from the leaf, repeatedly searching the
pool for a certificate whose subject equals the current tail's issuer; it
succeeds when the tail is self-signed, and fails (`none`, the
`IncompleteChainError` of the spec) when no issuer is found or a cycle is
detected (an issuer already present earlier in the chain).  Fuel bounds the
walk by the pool size, which the cycle guard makes sufficient. -/
def find_chain_aux (pool : List Certificate) :
    Nat → List Certificate → Certificate → Option (List Certificate)
  | 0, _, _ => none
  | fuel + 1, acc, cur =>
    if cur.issuer = cur.subject then some (acc ++ [cur])
    else
      match pool.find? (fun c => decide (c.subject = cur.issuer)) with
      | none => none
      | some nxt =>
        if nxt ∈ acc ++ [cur] then none
        else find_chain_aux pool fuel (acc ++ [cur]) nxt

/-- Modelled from the spec: `resolve(leaf, pool)` of spec section 4.1. -/
def find_chain (leaf : Certificate) (pool : List Certificate) : Option (List Certificate) :=
  find_chain_aux pool (pool.length + 1) [] leaf

/-- The pool `{load_certificate(c['certificate']) for c in ssh['pki']['ca'].values()
if 'certificate' in c}` (set deduplication does not affect the issuer search). -/
def ca_pool (pki_ca : List (String × CaEntry)) : List Certificate :=
  pki_ca.filterMap (fun p => p.2.certificate)

/-- Dictionary lookup in `ssh['pki']['ca']`. -/
def lookup_ca (pki_ca : List (String × CaEntry)) (name : String) : Option CaEntry :=
  (pki_ca.find? (fun p => decide (p.1 = name))).map Prod.snd

/-- `handle_trusted_user_ca_key(ssh)`: with no trust anchor configured, remove
the trusted-user-CA-key file if present and collapse the principals directory;
otherwise resolve the CA chain, write its newline-joined encodings to the
trusted-user-CA-key file, and reconcile the bind-users.  Missing dictionary
keys raise `KeyError`; a failed chain resolution is the spec's
`IncompleteChainError`, surfaced as a `ConfigError`-class failure. -/
def handle_trusted_user_ca_key (ssh : SshConfig) (fs : SshFs) : SshFs × Option PyError :=
  match ssh.trusted_user_ca_key with
  | none =>
    let fs1 := if fs.trustedCaFile.isSome then { fs with trustedCaFile := none } else fs
    ({ fs1 with principalsDir := cleanup_authorized_principals_dir [] fs1.principalsDir },
      none)
  | some t =>
    match t.ca_certificate with
    | none => (fs, some .keyError)
    | some caName =>
      match lookup_ca ssh.pki_ca caName with
      | none => (fs, some .keyError)
      | some entry =>
        match entry.certificate with
        | none => (fs, some .keyError)
        | some cert =>
          match find_chain cert (ca_pool ssh.pki_ca) with
          | none => (fs, some (.configError "incomplete CA chain"))
          | some chain =>
            let chainText := String.intercalate "\n" (chain.map Certificate.pem)
            let fs1 := { fs with trustedCaFile := some chainText }
            match t.bind_user with
            | none =>
              ({ fs1 with principalsDir :=
                  cleanup_authorized_principals_dir [] fs1.principalsDir }, none)
            | some binds =>
              match reconcile_bind_users ssh.login_users binds fs1.principalsDir with
              | (d, e) => ({ fs1 with principalsDir := d }, e)

/-- `verify(ssh)`: `None` verifies trivially; a `rekey` node must carry
`data`; a configured trusted-user-CA-key must name a CA certificate, that CA
must exist in the PKI (`verify_pki_ca_certificate` — external, modelled from
the spec: the trust anchor must name an existing CA), and it must carry
certificate material.  `verify_vrf` is external; modelled from the spec,
which lists no VRF check among verify's failure conditions, it raises
nothing here. -/
def verify (ssh : Option SshConfig) : Except String Unit :=
  match ssh with
  | none => .ok ()
  | some s =>
    if s.rekey.any (fun r => !r.data) then
      .error "Rekey data is required!"
    else
      match s.trusted_user_ca_key with
      | some t =>
        match t.ca_certificate with
        | none => .error "CA certificate is required for TrustedUserCAKey"
        | some caName =>
          match lookup_ca s.pki_ca caName with
          | none => .error "CA certificate does not exist in PKI"
          | some entry =>
            match entry.certificate with
            | none => .error "CA certificate is not valid or missing"
            | some _ => .ok ()
      | none => .ok ()

/-- The three host-key bootstrap checks of `generate`: each missing key file
is generated by one `ssh-keygen` call; existing keys are never touched. -/
def host_keys_step (fs : SshFs) : SshFs × List Action :=
  let step1 : SshFs × List Action :=
    if fs.keyRsa then (fs, [])
    else ({ fs with keyRsa := true }, [Action.sshKeygen "rsa"])
  let step2 : SshFs × List Action :=
    if step1.1.keyDsa then (step1.1, [])
    else ({ step1.1 with keyDsa := true }, [Action.sshKeygen "dsa"])
  let step3 : SshFs × List Action :=
    if step2.1.keyEd25519 then (step2.1, [])
    else ({ step2.1 with keyEd25519 := true }, [Action.sshKeygen "ed25519"])
  (step3.1, step1.2 ++ step2.2 ++ step3.2)

/-- `generate(ssh)`: with no snapshot, remove the rendered config file if it
exists.  Otherwise generate any missing host key, run
`handle_trusted_user_ca_key` (whose exceptions propagate), render the sshd
config, and, when dynamic protection is configured, render the sshguard
config and whitelist. -/
def generate (ssh : Option SshConfig) (fs : SshFs) :
    SshFs × List Action × Option PyError :=
  match ssh with
  | none =>
    (if fs.configFile then { fs with configFile := false } else fs, [], none)
  | some s =>
    let keys := host_keys_step fs
    match handle_trusted_user_ca_key s keys.1 with
    | (fs4, some e) => (fs4, keys.2, some e)
    | (fs4, none) =>
      let fs5 := { fs4 with configFile := true }
      let fs6 :=
        if s.dynamic_protection then
          { fs5 with sshguardConf := true, sshguardWhitelist := true }
        else fs5
      (fs6, keys.2, none)

/-- `apply(ssh)`: with no snapshot, stop all wildcard instances and the
sshguard sidecar.  Otherwise first stop (no dynamic protection) or
reload-or-restart (dynamic protection) the sidecar; then, when
`restart_required` is set, stop all wildcard instances and restart each
declared VRF unit, else reload-or-restart each declared VRF unit.  A snapshot
without a `'vrf'` key raises `KeyError` at the final loop, after the earlier
calls have been issued. -/
def apply (ssh : Option SshConfig) : List Action × Option PyError :=
  match ssh with
  | none =>
    ([.systemctl .stop sshWildcard, .systemctl .stop sshguardService], none)
  | some s =>
    let sidecar : List Action :=
      if s.dynamic_protection then [.systemctl .reloadOrRestart sshguardService]
      else [.systemctl .stop sshguardService]
    let pre : List Action :=
      if s.restart_required then [.systemctl .stop sshWildcard] else []
    let act : SystemdAct := if s.restart_required then .restart else .reloadOrRestart
    match s.vrf with
    | none => (sidecar ++ pre, some .keyError)
    | some vrfs =>
      (sidecar ++ pre ++ vrfs.map (fun v => .systemctl act (sshUnit v)), none)

/-- The exit behaviour of the `__main__` block: success, a caught
`ConfigError` (printed, exit 1), or an uncaught `KeyError`. -/
inductive PipeOutcome where
  | ok
  | configErrorExit
  | uncaughtKeyError
deriving DecidableEq

/-- The `__main__` block: `verify(c); generate(c); apply(c)` under
`except ConfigError`.  Returns the final filesystem state, the trace of
external calls, and the outcome. -/
def pipeline (ssh : Option SshConfig) (fs : SshFs) :
    SshFs × List Action × PipeOutcome :=
  match verify ssh with
  | .error _ => (fs, [], .configErrorExit)
  | .ok _ =>
    match generate ssh fs with
    | (fs1, tr1, some (.configError _)) => (fs1, tr1, .configErrorExit)
    | (fs1, tr1, some .keyError) => (fs1, tr1, .uncaughtKeyError)
    | (fs1, tr1, none) =>
      match Ssh.apply ssh with
      | (tr2, some (.configError _)) => (fs1, tr1 ++ tr2, .configErrorExit)
      | (tr2, some .keyError) => (fs1, tr1 ++ tr2, .uncaughtKeyError)
      | (tr2, none) => (fs1, tr1 ++ tr2, .ok)

/-- The filenames of a directory listing. -/
def file_names (files : List (String × String)) : List String := files.map Prod.fst

lemma lookup_write_self (files : List (String × String)) (n c : String) :
    lookup_file (write_file files n c) n = some c := by
  induction files with
  | nil => simp [write_file, lookup_file]
  | cons p rest ih =>
    by_cases h : p.1 = n
    · simp [write_file, lookup_file, h]
    · simp [write_file, lookup_file, h, ih]

lemma lookup_write_ne (files : List (String × String)) {m n : String} (c : String)
    (h : m ≠ n) : lookup_file (write_file files n c) m = lookup_file files m := by
  have hnm : ¬ n = m := fun hh => h hh.symm
  induction files with
  | nil => simp [write_file, lookup_file, hnm]
  | cons p rest ih =>
    by_cases hp : p.1 = n
    · have hw : write_file (p :: rest) n c = (n, c) :: rest := by simp [write_file, hp]
      rw [hw]
      simp [lookup_file, hp, hnm]
    · have hw : write_file (p :: rest) n c = p :: write_file rest n c := by
        simp [write_file, hp]
      rw [hw]
      by_cases hm : p.1 = m <;> simp [lookup_file, hm, ih]

lemma write_file_eq_of_lookup (files : List (String × String)) {n c : String}
    (h : lookup_file files n = some c) : write_file files n c = files := by
  induction files with
  | nil => simp [lookup_file] at h
  | cons p rest ih =>
    obtain ⟨a, b⟩ := p
    by_cases hp : a = n
    · subst hp
      have hb : b = c := by simpa [lookup_file] using h
      subst hb
      simp [write_file]
    · have h' : lookup_file rest n = some c := by simpa [lookup_file, hp] using h
      simp [write_file, hp, ih h']

lemma mem_file_names_write (files : List (String × String)) {m : String} (n c : String)
    (h : m ∈ file_names (write_file files n c)) : m ∈ file_names files ∨ m = n := by
  induction files with
  | nil => simpa [write_file, file_names] using h
  | cons p rest ih =>
    by_cases hp : p.1 = n
    · simp only [write_file, if_pos hp, file_names, List.map_cons, List.mem_cons] at h
      rcases h with h | h
      · exact Or.inr h
      · exact Or.inl (by simp [file_names, h])
    · simp only [write_file, if_neg hp, file_names, List.map_cons, List.mem_cons] at h
      rcases h with h | h
      · exact Or.inl (by simp [file_names, h])
      · rcases ih h with h' | h'
        · exact Or.inl (by simp [file_names] at h' ⊢; exact Or.inr h')
        · exact Or.inr h'

lemma lookup_eq_none_of_not_mem (files : List (String × String)) {n : String}
    (h : n ∉ file_names files) : lookup_file files n = none := by
  induction files with
  | nil => simp [lookup_file]
  | cons p rest ih =>
    simp only [file_names, List.map_cons, List.mem_cons, not_or] at h
    have h1 : ¬ p.1 = n := fun hh => h.1 hh.symm
    simp [lookup_file, h1, ih (by simpa [file_names] using h.2)]

lemma mem_of_lookup_eq_some (files : List (String × String)) {n c : String}
    (h : lookup_file files n = some c) : n ∈ file_names files := by
  by_contra hn
  rw [lookup_eq_none_of_not_mem files hn] at h
  exact Option.noConfusion h

lemma nodup_file_names_write (files : List (String × String)) (n c : String)
    (h : (file_names files).Nodup) : (file_names (write_file files n c)).Nodup := by
  induction files with
  | nil => simp [write_file, file_names]
  | cons p rest ih =>
    simp only [file_names, List.map_cons, List.nodup_cons] at h
    by_cases hp : p.1 = n
    · subst hp
      simpa [write_file, file_names, List.nodup_cons] using h
    · have hw : write_file (p :: rest) n c = p :: write_file rest n c := by
        simp [write_file, hp]
      rw [hw, show file_names (p :: write_file rest n c)
            = p.1 :: file_names (write_file rest n c) from rfl]
      refine List.nodup_cons.mpr ⟨?_, ih h.2⟩
      intro hmem
      rcases mem_file_names_write rest n c hmem with h' | h'
      · exact h.1 (by simpa [file_names] using h')
      · exact hp h'

lemma lookup_filter_mem (v : List String) (files : List (String × String)) (n : String) :
    lookup_file (files.filter (fun p => decide (p.1 ∈ v))) n
      = if n ∈ v then lookup_file files n else none := by
  induction files with
  | nil => simp [lookup_file]
  | cons p rest ih =>
    by_cases hpv : p.1 ∈ v
    · rw [show (p :: rest).filter (fun p => decide (p.1 ∈ v))
            = p :: rest.filter (fun p => decide (p.1 ∈ v)) from by simp [hpv]]
      by_cases hpn : p.1 = n
      · have hnv : n ∈ v := hpn ▸ hpv
        simp [lookup_file, hpn, hnv]
      · simp [lookup_file, hpn, ih]
    · rw [show (p :: rest).filter (fun p => decide (p.1 ∈ v))
            = rest.filter (fun p => decide (p.1 ∈ v)) from by simp [hpv]]
      by_cases hnv : n ∈ v
      · have hpn : ¬ p.1 = n := fun hh => hpv (by rw [hh]; exact hnv)
        simp [lookup_file, hpn, hnv, ih]
      · simp [hnv, ih]

lemma cleanup_not_exists (v : List String) (d : DirState) (h : d.dirExists = false) :
    cleanup_authorized_principals_dir v d = d := by
  simp [cleanup_authorized_principals_dir, h]

lemma cleanup_files (v : List String) (d : DirState) (h : d.dirExists = true) :
    (cleanup_authorized_principals_dir v d).files
      = d.files.filter (fun p => decide (p.1 ∈ v)) := by
  simp only [cleanup_authorized_principals_dir, h]
  split
  · split <;> rfl
  · simp_all

lemma cleanup_dirExists (v : List String) (d : DirState) (h : d.dirExists = true) :
    (cleanup_authorized_principals_dir v d).dirExists
      = !(d.files.filter (fun p => decide (p.1 ∈ v))).isEmpty := by
  simp only [cleanup_authorized_principals_dir, h]
  split
  · split
    · rename_i hemp
      simp [hemp]
    · rename_i hemp
      rw [Bool.not_eq_true] at hemp
      simp [hemp]
  · simp_all

lemma cleanup_lookup (v : List String) (d : DirState) (h : d.dirExists = true)
    (n : String) :
    lookup_file (cleanup_authorized_principals_dir v d).files n
      = if n ∈ v then lookup_file d.files n else none := by
  rw [cleanup_files v d h, lookup_filter_mem]

lemma cleanup_collapse (d : DirState) (h : d.dirExists = true) :
    cleanup_authorized_principals_dir [] d = { dirExists := false, files := [] } := by
  simp [cleanup_authorized_principals_dir, h]

lemma cleanup_eq_self (v : List String) (d : DirState) (hex : d.dirExists = true)
    (hne : d.files ≠ []) (hall : ∀ p ∈ d.files, p.1 ∈ v) :
    cleanup_authorized_principals_dir v d = d := by
  have hf : d.files.filter (fun p => decide (p.1 ∈ v)) = d.files :=
    List.filter_eq_self.mpr (fun p hp => by simpa using hall p hp)
  have hemp : d.files.isEmpty = false := by
    cases hd : d.files
    · exact absurd hd hne
    · simp [hd]
  ext
  · rw [cleanup_dirExists v d hex, hf, hemp, hex]
    rfl
  · rw [cleanup_files v d hex, hf]

lemma cleanup_nodup (v : List String) (d : DirState)
    (h : (file_names d.files).Nodup) :
    (file_names (cleanup_authorized_principals_dir v d).files).Nodup := by
  by_cases hex : d.dirExists = true
  · rw [cleanup_files v d hex]
    exact ((List.filter_sublist d.files).map Prod.fst).nodup h
  · rw [cleanup_not_exists v d (by simpa using hex)]
    exact h

lemma cleanup_keys_valid (v : List String) (d : DirState) (hex : d.dirExists = true) :
    ∀ p ∈ (cleanup_authorized_principals_dir v d).files, p.1 ∈ v := by
  intro p hp
  rw [cleanup_files v d hex] at hp
  simpa using (List.mem_filter.mp hp).2

/-- A bind-user entry that passes both checks of the loop. -/
def valid_bind (login_users : List String) (p : String × BindUserConfig) : Prop :=
  p.1 ∈ login_users ∧ p.2.principal ≠ none

instance (login_users : List String) (p : String × BindUserConfig) :
    Decidable (valid_bind login_users p) := by
  unfold valid_bind
  infer_instance

lemma ensure_dir_files (d : DirState) : (ensure_dir d).files = d.files := by
  unfold ensure_dir
  split <;> rfl

lemma ensure_dir_of_exists (d : DirState) (h : d.dirExists = true) :
    ensure_dir d = d := by
  simp [ensure_dir, h]

lemma write_step_files (d : DirState) (u c : String) :
    (write_step d u c).files = write_file d.files u c := by
  simp [write_step, ensure_dir_files]

lemma write_step_dirExists (d : DirState) (u c : String) :
    (write_step d u c).dirExists = true := by
  by_cases h : d.dirExists = true <;> simp [write_step, ensure_dir, h]

lemma bind_loop_lookup_not_mem (login : List String)
    (binds : List (String × BindUserConfig)) (d : DirState) (acc : List String)
    {n : String} (h : n ∉ binds.map Prod.fst) :
    lookup_file (bind_user_loop login binds d acc).1.files n
      = lookup_file d.files n := by
  induction binds generalizing d acc with
  | nil => simp [bind_user_loop]
  | cons p rest ih =>
    obtain ⟨u, cfg⟩ := p
    simp only [List.map_cons, List.mem_cons, not_or] at h
    by_cases hu : u ∈ login
    · cases hpr : cfg.principal with
      | none => simp [bind_user_loop, hu, hpr]
      | some pr =>
        simp only [bind_user_loop, if_pos hu, hpr]
        rw [ih _ _ h.2, write_step_files, lookup_write_ne _ _ h.1]
    · simp [bind_user_loop, hu]

lemma bind_loop_dirExists_mono (login : List String)
    (binds : List (String × BindUserConfig)) (d : DirState) (acc : List String)
    (h : d.dirExists = true) :
    (bind_user_loop login binds d acc).1.dirExists = true := by
  induction binds generalizing d acc with
  | nil => simpa [bind_user_loop] using h
  | cons p rest ih =>
    obtain ⟨u, cfg⟩ := p
    by_cases hu : u ∈ login
    · cases hpr : cfg.principal with
      | none => simpa [bind_user_loop, hu, hpr] using h
      | some pr =>
        simp only [bind_user_loop, if_pos hu, hpr]
        exact ih _ _ (write_step_dirExists _ _ _)
    · simpa [bind_user_loop, hu] using h

lemma bind_loop_valid_ok (login : List String)
    (binds : List (String × BindUserConfig)) (d : DirState) (acc : List String)
    (hvalid : ∀ p ∈ binds, valid_bind login p) :
    (bind_user_loop login binds d acc).2.2 = none ∧
    (bind_user_loop login binds d acc).2.1 = acc ++ binds.map Prod.fst := by
  induction binds generalizing d acc with
  | nil => simp [bind_user_loop]
  | cons p rest ih =>
    obtain ⟨u, cfg⟩ := p
    obtain ⟨hu, hprne⟩ := hvalid (u, cfg) (List.mem_cons_self _ _)
    cases hprv : cfg.principal with
    | none => exact absurd hprv hprne
    | some pr =>
      simp only [bind_user_loop, if_pos hu, hprv]
      have hres := ih (write_step d u (String.intercalate "\n" (principal_list pr) ++ "\n"))
        (acc ++ [u]) (fun q hq => hvalid q (List.mem_cons_of_mem _ hq))
      simpa using hres

lemma bind_loop_lookup_valid (login : List String)
    (binds : List (String × BindUserConfig)) (d : DirState) (acc : List String)
    (hvalid : ∀ p ∈ binds, valid_bind login p)
    (hnd : (binds.map Prod.fst).Nodup) (n : String) :
    lookup_file (bind_user_loop login binds d acc).1.files n
      = match binds.find? (fun p => decide (p.1 = n)) with
        | some p => some (render_principals p.2)
        | none => lookup_file d.files n := by
  induction binds generalizing d acc with
  | nil => simp [bind_user_loop]
  | cons p rest ih =>
    obtain ⟨u, cfg⟩ := p
    obtain ⟨hu, hprne⟩ := hvalid (u, cfg) (List.mem_cons_self _ _)
    simp only [List.map_cons, List.nodup_cons] at hnd
    cases hprv : cfg.principal with
    | none => exact absurd hprv hprne
    | some pr =>
      simp only [bind_user_loop, if_pos hu, hprv]
      by_cases hn : u = n
      · subst hn
        rw [bind_loop_lookup_not_mem login rest _ _ hnd.1,
          write_step_files, lookup_write_self]
        simp [List.find?_cons, render_principals, hprv]
      · rw [ih _ _ (fun q hq => hvalid q (List.mem_cons_of_mem _ hq)) hnd.2]
        have hhd : ((u, cfg) :: rest).find? (fun p => decide (p.1 = n))
            = rest.find? (fun p => decide (p.1 = n)) := by
          simp [List.find?_cons, hn]
        rw [hhd]
        cases hf : rest.find? (fun p => decide (p.1 = n)) with
        | some q => simp
        | none =>
          simp only []
          rw [write_step_files, lookup_write_ne _ _ (fun hh => hn hh.symm)]

lemma bind_loop_nodup (login : List String)
    (binds : List (String × BindUserConfig)) (d : DirState) (acc : List String)
    (h : (file_names d.files).Nodup) :
    (file_names (bind_user_loop login binds d acc).1.files).Nodup := by
  induction binds generalizing d acc with
  | nil => simpa [bind_user_loop] using h
  | cons p rest ih =>
    obtain ⟨u, cfg⟩ := p
    by_cases hu : u ∈ login
    · cases hpr : cfg.principal with
      | none => simpa [bind_user_loop, hu, hpr] using h
      | some pr =>
        simp only [bind_user_loop, if_pos hu, hpr]
        refine ih _ _ ?_
        rw [write_step_files]
        exact nodup_file_names_write _ _ _ h
    · simpa [bind_user_loop, hu] using h

lemma bind_loop_keys_subset (login : List String)
    (binds : List (String × BindUserConfig)) (d : DirState) (acc : List String)
    {m : String}
    (h : m ∈ file_names (bind_user_loop login binds d acc).1.files) :
    m ∈ file_names d.files ∨ m ∈ binds.map Prod.fst := by
  induction binds generalizing d acc with
  | nil => exact Or.inl (by simpa [bind_user_loop] using h)
  | cons p rest ih =>
    obtain ⟨u, cfg⟩ := p
    by_cases hu : u ∈ login
    · cases hpr : cfg.principal with
      | none => exact Or.inl (by simpa [bind_user_loop, hu, hpr] using h)
      | some pr =>
        simp only [bind_user_loop, if_pos hu, hpr] at h
        rcases ih _ _ h with h' | h'
        · rw [write_step_files] at h'
          rcases mem_file_names_write _ _ _ h' with h'' | h''
          · exact Or.inl h''
          · exact Or.inr (by simp [h''])
        · exact Or.inr (by simp [h'])
    · exact Or.inl (by simpa [bind_user_loop, hu] using h)

lemma bind_loop_ok_valid (login : List String)
    (binds : List (String × BindUserConfig)) (d : DirState) (acc : List String)
    (h : (bind_user_loop login binds d acc).2.2 = none) :
    ∀ p ∈ binds, valid_bind login p := by
  induction binds generalizing d acc with
  | nil => intro p hp; simp at hp
  | cons p rest ih =>
    obtain ⟨u, cfg⟩ := p
    by_cases hu : u ∈ login
    · cases hpr : cfg.principal with
      | none => simp [bind_user_loop, hu, hpr] at h
      | some pr =>
        simp only [bind_user_loop, if_pos hu, hpr] at h
        intro q hq
        rcases List.mem_cons.mp hq with hq' | hq'
        · subst hq'
          exact ⟨hu, by simp [hpr]⟩
        · exact ih _ _ h q hq'
    · simp [bind_user_loop, hu] at h

lemma bind_loop_error_iff (login : List String)
    (binds : List (String × BindUserConfig)) (d : DirState) (acc : List String) :
    (∃ m, (bind_user_loop login binds d acc).2.2 = some (.configError m))
      ↔ ∃ p ∈ binds, p.1 ∉ login ∨ p.2.principal = none := by
  induction binds generalizing d acc with
  | nil => simp [bind_user_loop]
  | cons p rest ih =>
    obtain ⟨u, cfg⟩ := p
    by_cases hu : u ∈ login
    · cases hpr : cfg.principal with
      | none =>
        simp only [bind_user_loop, if_pos hu, hpr]
        constructor
        · intro _
          exact ⟨(u, cfg), List.mem_cons_self _ _, Or.inr hpr⟩
        · intro _
          exact ⟨"Principal not found for user", rfl⟩
      | some pr =>
        simp only [bind_user_loop, if_pos hu, hpr]
        rw [ih]
        constructor
        · intro ⟨q, hq, hbad⟩
          exact ⟨q, List.mem_cons_of_mem _ hq, hbad⟩
        · intro ⟨q, hq, hbad⟩
          rcases List.mem_cons.mp hq with hq' | hq'
          · subst hq'
            rcases hbad with hbad | hbad
            · exact absurd hu hbad
            · simp [hpr] at hbad
          · exact ⟨q, hq', hbad⟩
    · simp only [bind_user_loop, if_neg hu]
      constructor
      · intro _
        exact ⟨(u, cfg), List.mem_cons_self _ _, Or.inl hu⟩
      · intro _
        exact ⟨"User not found in system login users", rfl⟩

lemma bind_loop_fixpoint (login : List String)
    (binds : List (String × BindUserConfig)) (d : DirState) (acc : List String)
    (hnd : (binds.map Prod.fst).Nodup) :
    bind_user_loop login binds (bind_user_loop login binds d acc).1 acc
      = bind_user_loop login binds d acc := by
  induction binds generalizing d acc with
  | nil => simp [bind_user_loop]
  | cons p rest ih =>
    obtain ⟨u, cfg⟩ := p
    simp only [List.map_cons, List.nodup_cons] at hnd
    by_cases hu : u ∈ login
    · cases hpr : cfg.principal with
      | none => simp [bind_user_loop, hu, hpr]
      | some pr =>
        simp only [bind_user_loop, if_pos hu, hpr]
        have hex : (bind_user_loop login rest
            (write_step d u (String.intercalate "\n" (principal_list pr) ++ "\n"))
            (acc ++ [u])).1.dirExists = true :=
          bind_loop_dirExists_mono _ _ _ _ (write_step_dirExists _ _ _)
        have hlk : lookup_file (bind_user_loop login rest
            (write_step d u (String.intercalate "\n" (principal_list pr) ++ "\n"))
            (acc ++ [u])).1.files u
            = some (String.intercalate "\n" (principal_list pr) ++ "\n") := by
          rw [bind_loop_lookup_not_mem login rest _ _ hnd.1, write_step_files,
            lookup_write_self]
        have hws : write_step (bind_user_loop login rest
            (write_step d u (String.intercalate "\n" (principal_list pr) ++ "\n"))
            (acc ++ [u])).1 u (String.intercalate "\n" (principal_list pr) ++ "\n")
            = (bind_user_loop login rest
            (write_step d u (String.intercalate "\n" (principal_list pr) ++ "\n"))
            (acc ++ [u])).1 := by
          rw [show ∀ dd : DirState, dd.dirExists = true → ∀ w c : String,
              write_step dd w c = { dd with files := write_file dd.files w c } from
              fun dd hdd w c => by simp [write_step, ensure_dir_of_exists _ hdd]]
          · rw [write_file_eq_of_lookup _ hlk]
          · exact hex
        rw [hws]
        exact ih _ _ hnd.2
    · simp [bind_user_loop, hu]

lemma bind_loop_stepwise_id (login : List String)
    (binds : List (String × BindUserConfig)) (d : DirState) (acc : List String)
    (hvalid : ∀ p ∈ binds, valid_bind login p)
    (hlook : ∀ p ∈ binds, lookup_file d.files p.1 = some (render_principals p.2))
    (hex : binds ≠ [] → d.dirExists = true) :
    bind_user_loop login binds d acc = (d, acc ++ binds.map Prod.fst, none) := by
  induction binds generalizing acc with
  | nil => simp [bind_user_loop]
  | cons p rest ih =>
    obtain ⟨u, cfg⟩ := p
    obtain ⟨hu, hprne⟩ := hvalid (u, cfg) (List.mem_cons_self _ _)
    cases hprv : cfg.principal with
    | none => exact absurd hprv hprne
    | some pr =>
      have hexd : d.dirExists = true := hex (by simp)
      have hcontents : render_principals cfg
          = String.intercalate "\n" (principal_list pr) ++ "\n" := by
        simp [render_principals, hprv]
      have hws : write_step d u (String.intercalate "\n" (principal_list pr) ++ "\n")
          = d := by
        have h1 : write_step d u (String.intercalate "\n" (principal_list pr) ++ "\n")
            = { d with files :=
                write_file d.files u (String.intercalate "\n" (principal_list pr) ++ "\n") } := by
          simp [write_step, ensure_dir_of_exists _ hexd]
        rw [h1, write_file_eq_of_lookup _
          (by rw [← hcontents]; exact hlook (u, cfg) (List.mem_cons_self _ _))]
      simp only [bind_user_loop, if_pos hu, hprv, hws]
      rw [ih (acc ++ [u]) (fun q hq => hvalid q (List.mem_cons_of_mem _ hq))
        (fun q hq => hlook q (List.mem_cons_of_mem _ hq)) (fun _ => hexd)]
      simp

lemma reconcile_def_ok (login : List String)
    (binds : List (String × BindUserConfig)) (d : DirState)
    (h : (bind_user_loop login binds d []).2.2 = none) :
    reconcile_bind_users login binds d
      = (cleanup_authorized_principals_dir (bind_user_loop login binds d []).2.1
          (bind_user_loop login binds d []).1, none) := by
  unfold reconcile_bind_users
  rcases hL : bind_user_loop login binds d [] with ⟨d1, users, e⟩
  rw [hL] at h
  simp only at h
  subst h
  rfl

lemma reconcile_def_err (login : List String)
    (binds : List (String × BindUserConfig)) (d : DirState) (e : PyError)
    (h : (bind_user_loop login binds d []).2.2 = some e) :
    reconcile_bind_users login binds d
      = ((bind_user_loop login binds d []).1, some e) := by
  unfold reconcile_bind_users
  rcases hL : bind_user_loop login binds d [] with ⟨d1, users, e'⟩
  rw [hL] at h
  simp only at h
  subst h
  rfl

lemma find?_key_of_mem_nodup (binds : List (String × BindUserConfig))
    (hnd : (binds.map Prod.fst).Nodup) {p : String × BindUserConfig}
    (hp : p ∈ binds) :
    binds.find? (fun q => decide (q.1 = p.1)) = some p := by
  induction binds with
  | nil => simp at hp
  | cons q rest ih =>
    simp only [List.map_cons, List.nodup_cons] at hnd
    rcases List.mem_cons.mp hp with h | h
    · subst h
      simp [List.find?_cons]
    · have hq : ¬ q.1 = p.1 := by
        intro hh
        exact hnd.1 (hh.symm ▸ List.mem_map_of_mem Prod.fst h)
      simp [List.find?_cons, hq, ih hnd.2 h]

lemma bind_loop_dirExists_of_ne (login : List String)
    (binds : List (String × BindUserConfig)) (d : DirState) (acc : List String)
    (hne : binds ≠ []) (hvalid : ∀ p ∈ binds, valid_bind login p) :
    (bind_user_loop login binds d acc).1.dirExists = true := by
  cases binds with
  | nil => exact absurd rfl hne
  | cons p rest =>
    obtain ⟨u, cfg⟩ := p
    obtain ⟨hu, hprne⟩ := hvalid (u, cfg) (List.mem_cons_self _ _)
    cases hprv : cfg.principal with
    | none => exact absurd hprv hprne
    | some pr =>
      simp only [bind_user_loop, if_pos hu, hprv]
      exact bind_loop_dirExists_mono _ _ _ _ (write_step_dirExists _ _ _)

lemma reconcile_valid_char (login : List String)
    (binds : List (String × BindUserConfig)) (d : DirState)
    (hne : binds ≠ []) (hnd : (binds.map Prod.fst).Nodup)
    (hvalid : ∀ p ∈ binds, valid_bind login p) :
    (reconcile_bind_users login binds d).2 = none ∧
    (reconcile_bind_users login binds d).1.dirExists = true ∧
    (∀ p ∈ (reconcile_bind_users login binds d).1.files, p.1 ∈ binds.map Prod.fst) ∧
    ∀ n, lookup_file (reconcile_bind_users login binds d).1.files n
      = match binds.find? (fun p => decide (p.1 = n)) with
        | some p => some (render_principals p.2)
        | none => none := by
  obtain ⟨hok, hacc⟩ := bind_loop_valid_ok login binds d [] hvalid
  simp only [List.nil_append] at hacc
  have hex1 : (bind_user_loop login binds d []).1.dirExists = true :=
    bind_loop_dirExists_of_ne login binds d [] hne hvalid
  have hrec := reconcile_def_ok login binds d hok
  rw [hacc] at hrec
  have hkept : ∃ q ∈ (bind_user_loop login binds d []).1.files,
      q.1 ∈ binds.map Prod.fst := by
    obtain ⟨p0, hp0⟩ : ∃ p0, p0 ∈ binds := by
      cases binds with
      | nil => exact absurd rfl hne
      | cons a l => exact ⟨a, List.mem_cons_self _ _⟩
    have hl := bind_loop_lookup_valid login binds d [] hvalid hnd p0.1
    rw [find?_key_of_mem_nodup binds hnd hp0] at hl
    have hmem := mem_of_lookup_eq_some _ hl
    obtain ⟨q, hq, hq1⟩ := List.mem_map.mp hmem
    exact ⟨q, hq, by rw [hq1]; exact List.mem_map_of_mem _ hp0⟩
  refine ⟨by rw [hrec], ?_, ?_, ?_⟩
  · rw [hrec]
    simp only
    rw [cleanup_dirExists _ _ hex1]
    obtain ⟨q, hq, hqv⟩ := hkept
    have hqf : q ∈ (bind_user_loop login binds d []).1.files.filter
        (fun p => decide (p.1 ∈ binds.map Prod.fst)) :=
      List.mem_filter.mpr ⟨hq, by simpa using hqv⟩
    cases hfe : ((bind_user_loop login binds d []).1.files.filter
        (fun p => decide (p.1 ∈ binds.map Prod.fst))).isEmpty with
    | false => rfl
    | true =>
      rw [List.isEmpty_iff] at hfe
      rw [hfe] at hqf
      simp at hqf
  · rw [hrec]
    simp only
    exact cleanup_keys_valid _ _ hex1
  · intro n
    rw [hrec]
    simp only
    rw [cleanup_lookup _ _ hex1 n,
      bind_loop_lookup_valid login binds d [] hvalid hnd n]
    by_cases hn : n ∈ binds.map Prod.fst
    · rw [if_pos hn]
      obtain ⟨q, hq, hq1⟩ := List.mem_map.mp hn
      subst hq1
      rw [find?_key_of_mem_nodup binds hnd hq]
    · rw [if_neg hn]
      have hfind : binds.find? (fun p => decide (p.1 = n)) = none := by
        rw [List.find?_eq_none]
        intro x hx
        simp only [decide_eq_true_eq]
        intro hxn
        exact hn (hxn ▸ List.mem_map_of_mem Prod.fst hx)
      rw [hfind]

lemma reconcile_nodup (login : List String)
    (binds : List (String × BindUserConfig)) (d : DirState)
    (hdw : (file_names d.files).Nodup) :
    (file_names (reconcile_bind_users login binds d).1.files).Nodup := by
  have hln := bind_loop_nodup login binds d [] hdw
  cases hE : (bind_user_loop login binds d []).2.2 with
  | none =>
    rw [reconcile_def_ok login binds d hE]
    exact cleanup_nodup _ _ hln
  | some e =>
    rw [reconcile_def_err login binds d e hE]
    exact hln

lemma find?_key_of_mem_nodup' (binds : List (String × BindUserConfig))
    (hnd : (binds.map Prod.fst).Nodup) {u : String} {cfg : BindUserConfig}
    (hp : (u, cfg) ∈ binds) :
    binds.find? (fun q => decide (q.1 = u)) = some (u, cfg) :=
  find?_key_of_mem_nodup binds hnd hp

lemma host_keys_step_fields (fs : SshFs) :
    (host_keys_step fs).1.trustedCaFile = fs.trustedCaFile ∧
    (host_keys_step fs).1.principalsDir = fs.principalsDir ∧
    (host_keys_step fs).1.configFile = fs.configFile := by
  by_cases h1 : fs.keyRsa <;> by_cases h2 : fs.keyDsa <;>
    by_cases h3 : fs.keyEd25519 <;>
      simp [host_keys_step, h1, h2, h3]

lemma handle_none_fields (s : SshConfig) (fs : SshFs)
    (h : s.trusted_user_ca_key = none) :
    (handle_trusted_user_ca_key s fs).1.trustedCaFile = none ∧
    (handle_trusted_user_ca_key s fs).1.principalsDir
      = cleanup_authorized_principals_dir [] fs.principalsDir ∧
    (handle_trusted_user_ca_key s fs).2 = none := by
  unfold handle_trusted_user_ca_key
  rw [h]
  by_cases hc : fs.trustedCaFile.isSome
  · simp [hc]
  · simp [hc, Option.not_isSome_iff_eq_none.mp hc]

lemma handle_chain_trustedCaFile (s : SshConfig) (fs : SshFs)
    {t : TrustedCaCfg} {caName : String} {entry : CaEntry} {cert : Certificate}
    {chain : List Certificate}
    (hT : s.trusted_user_ca_key = some t)
    (hca : t.ca_certificate = some caName)
    (hent : lookup_ca s.pki_ca caName = some entry)
    (hcert : entry.certificate = some cert)
    (hchain : find_chain cert (ca_pool s.pki_ca) = some chain) :
    (handle_trusted_user_ca_key s fs).1.trustedCaFile
      = some (String.intercalate "\n" (chain.map Certificate.pem)) := by
  unfold handle_trusted_user_ca_key
  simp only [hT, hca, hent, hcert, hchain]
  cases hb : t.bind_user with
  | none => rfl
  | some binds => simp only [hb]

lemma generate_field_eq (s : SshConfig) (fs : SshFs) :
    ((generate (some s) fs).1).trustedCaFile
      = (handle_trusted_user_ca_key s (host_keys_step fs).1).1.trustedCaFile ∧
    ((generate (some s) fs).1).principalsDir
      = (handle_trusted_user_ca_key s (host_keys_step fs).1).1.principalsDir := by
  unfold generate
  rcases hH : handle_trusted_user_ca_key s (host_keys_step fs).1 with ⟨fs4, e⟩
  cases e with
  | none => by_cases hd : s.dynamic_protection <;> simp [hH, hd]
  | some e1 => simp [hH]

lemma apply_vrf_none (s : SshConfig) (h : s.vrf = none) :
    Ssh.apply (some s)
      = ((if s.dynamic_protection then [Action.systemctl .reloadOrRestart sshguardService]
          else [Action.systemctl .stop sshguardService]) ++
         (if s.restart_required then [Action.systemctl .stop sshWildcard] else []),
         some .keyError) := by
  simp only [Ssh.apply]
  rw [h]

lemma apply_vrf_some (s : SshConfig) (vrfs : List String) (h : s.vrf = some vrfs) :
    Ssh.apply (some s)
      = ((if s.dynamic_protection then [Action.systemctl .reloadOrRestart sshguardService]
          else [Action.systemctl .stop sshguardService]) ++
         (if s.restart_required then [Action.systemctl .stop sshWildcard] else []) ++
         vrfs.map (fun v => Action.systemctl
           (if s.restart_required then .restart else .reloadOrRestart) (sshUnit v)),
         none) := by
  simp only [Ssh.apply]
  rw [h]

/-- A filesystem state with all host keys present, no trust material, no
principal directory and no rendered files. -/
def fsDemo : SshFs :=
  { keyRsa := true, keyDsa := true, keyEd25519 := true
  , trustedCaFile := none
  , principalsDir := { dirExists := false, files := [] }
  , configFile := false, sshguardConf := false, sshguardWhitelist := false }

/-- C1 (amended): a ConfigError raised during the verify stage aborts the
pipeline before generate and apply run: the filesystem is returned unchanged
and no external call has been made.  (As stated, the claim is false: the
counterexample shows a ConfigError raised during generate after the
trusted-user-CA-key file has been written.) -/
theorem C1_verify_error_halts_pipeline_unmutated (ssh : Option SshConfig)
    (fs : SshFs) (m : String) (h : verify ssh = .error m) :
    pipeline ssh fs = (fs, [], .configErrorExit) := by
  unfold pipeline
  rw [h]

def c1BadRekey : SshConfig :=
  { rekey := some { data := false }
  , trusted_user_ca_key := none, pki_ca := [], login_users := []
  , dynamic_protection := false, restart_required := false, vrf := some [] }

/-- Witness for C1: a snapshot whose rekey node lacks its data source fails
verify, and the pipeline stops with the world untouched. -/
theorem C1_witness :
    pipeline (some c1BadRekey) fsDemo = (fsDemo, [], .configErrorExit) :=
  C1_verify_error_halts_pipeline_unmutated (some c1BadRekey) fsDemo
    "Rekey data is required!" rfl

def c1Cert : Certificate := { subject := "root", issuer := "root", pem := "PEM" }

def c1GenErr : SshConfig :=
  { rekey := none
  , trusted_user_ca_key := some
      { ca_certificate := some "ca"
      , bind_user := some [("eve", { principal := some (.inr ["p1"]) })] }
  , pki_ca := [("ca", { certificate := some c1Cert })]
  , login_users := [], dynamic_protection := false, restart_required := false
  , vrf := some [] }

/-- Counterexample to C1 as stated: this snapshot passes verify, yet the
invocation ends with a ConfigError — raised inside generate by the bound-user
check of `handle_trusted_user_ca_key` — and by then the trusted-user-CA-key
file has already been written, so state was mutated by this invocation. -/
theorem C1_counterexample :
    verify (some c1GenErr) = .ok () ∧
    (pipeline (some c1GenErr) fsDemo).2.2 = .configErrorExit ∧
    (pipeline (some c1GenErr) fsDemo).1 ≠ fsDemo ∧
    (pipeline (some c1GenErr) fsDemo).1.trustedCaFile = some "PEM" :=
  ⟨rfl, rfl, by decide, rfl⟩

/-- C2 (amended): the bound-user checks are performed by the generate stage
(`handle_trusted_user_ca_key`, modelled by `reconcile_bind_users`), not by
verify: the bind-user reconciliation raises a ConfigError exactly when some
bound user is absent from the system login-user set or declares no
principal, and completes without error otherwise. -/
theorem C2_bind_user_check_is_in_generate (login : List String)
    (binds : List (String × BindUserConfig)) (d : DirState) :
    (∃ m, (reconcile_bind_users login binds d).2 = some (.configError m))
      ↔ ∃ p ∈ binds, p.1 ∉ login ∨ p.2.principal = none := by
  rw [← bind_loop_error_iff login binds d []]
  cases hE : (bind_user_loop login binds d []).2.2 with
  | none => rw [reconcile_def_ok login binds d hE]
  | some e => rw [reconcile_def_err login binds d e hE]

def c2Cert : Certificate :=
  { subject := "ca-root", issuer := "ca-root", pem := "CA-PEM" }

def c2BadBind : SshConfig :=
  { rekey := none
  , trusted_user_ca_key := some
      { ca_certificate := some "ca"
      , bind_user := some [("eve", { principal := none })] }
  , pki_ca := [("ca", { certificate := some c2Cert })]
  , login_users := ["alice"], dynamic_protection := false
  , restart_required := false, vrf := some [] }

/-- Counterexample to C2 as stated: a snapshot binding the user eve, who is
not a system login user and declares no principal, passes verify without any
error; the ConfigError only surfaces in generate. -/
theorem C2_counterexample :
    verify (some c2BadBind) = .ok () ∧
    "eve" ∉ c2BadBind.login_users ∧
    (generate (some c2BadBind) fsDemo).2.2
      = some (.configError "User not found in system login users") :=
  ⟨rfl, by decide, rfl⟩

def c2LoopBinds : List (String × BindUserConfig) :=
  [("zoe", { principal := none })]

/-- Witness for C2 (amended): a bound user with no principal makes the
bind-user reconciliation fail with a ConfigError. -/
theorem C2_witness :
    ∃ m, (reconcile_bind_users [] c2LoopBinds
      { dirExists := false, files := [] }).2 = some (PyError.configError m) :=
  (C2_bind_user_check_is_in_generate [] c2LoopBinds
      { dirExists := false, files := [] }).mpr
    ⟨("zoe", { principal := none }), by decide, Or.inr rfl⟩

/-- C3: for a declared service, apply issues the sidecar action first (stop
without dynamic protection, reload-or-restart with it); then, when the
restart-required flag is set, a wildcard stop followed by a restart of every
declared VRF unit, and otherwise a reload-or-restart of every declared VRF
unit — the two branches mutually exclusive. -/
theorem C3_apply_order (s : SshConfig) (vrfs : List String)
    (h : s.vrf = some vrfs) :
    Ssh.apply (some s)
      = ((if s.dynamic_protection then
            [Action.systemctl .reloadOrRestart sshguardService]
          else [Action.systemctl .stop sshguardService]) ++
         (if s.restart_required then
            Action.systemctl .stop sshWildcard
              :: vrfs.map (fun v => Action.systemctl .restart (sshUnit v))
          else vrfs.map (fun v => Action.systemctl .reloadOrRestart (sshUnit v))),
         none) := by
  rw [apply_vrf_some s vrfs h]
  by_cases hr : s.restart_required <;> simp [hr]

def c3s : SshConfig :=
  { rekey := none, trusted_user_ca_key := none, pki_ca := []
  , login_users := [], dynamic_protection := false, restart_required := true
  , vrf := some ["red", "blue"] }

/-- Witness for C3: with dynamic protection off and a VRF change flagged, the
full call sequence is sidecar stop, wildcard stop, then per-VRF restarts. -/
theorem C3_witness :
    Ssh.apply (some c3s)
      = ([Action.systemctl .stop sshguardService,
          Action.systemctl .stop sshWildcard,
          Action.systemctl .restart "ssh@red.service",
          Action.systemctl .restart "ssh@blue.service"], none) := by
  rw [C3_apply_order c3s ["red", "blue"] rfl]
  rfl

/-- C4: when the service is not configured, apply stops the wildcard units
and the sidecar and does nothing else; generate removes the rendered config
file and does nothing else; the whole pipeline ends cleanly with exactly
those effects, regardless of any previous state. -/
theorem C4_service_removal (fs : SshFs) :
    Ssh.apply none = ([Action.systemctl .stop sshWildcard,
      Action.systemctl .stop sshguardService], none) ∧
    generate none fs = ({ fs with configFile := false }, [], none) ∧
    pipeline none fs = ({ fs with configFile := false },
      [Action.systemctl .stop sshWildcard,
       Action.systemctl .stop sshguardService], .ok) := by
  have hg : generate none fs = ({ fs with configFile := false }, [], none) := by
    obtain ⟨k1, k2, k3, tc, pd, cf, g1, g2⟩ := fs
    cases cf <;> simp [generate]
  refine ⟨rfl, hg, ?_⟩
  unfold pipeline
  rw [show verify none = Except.ok () from rfl, hg]
  rfl

/-- C5: for a non-empty, valid desired mapping (distinct bound users, each a
login user declaring a principal) and any well-formed initial directory, the
reconciliation succeeds and afterwards the directory exists and holds
exactly one file per bound user — named after the user, containing the
rendered principal list — and nothing else. -/
theorem C5_reconciler_convergence (login : List String)
    (binds : List (String × BindUserConfig)) (d : DirState)
    (hne : binds ≠ []) (hnd : (binds.map Prod.fst).Nodup)
    (hdw : (file_names d.files).Nodup)
    (hvalid : ∀ p ∈ binds, valid_bind login p) :
    (reconcile_bind_users login binds d).2 = none ∧
    (reconcile_bind_users login binds d).1.dirExists = true ∧
    (file_names (reconcile_bind_users login binds d).1.files).Nodup ∧
    ∀ n, lookup_file (reconcile_bind_users login binds d).1.files n
      = match binds.find? (fun p => decide (p.1 = n)) with
        | some p => some (render_principals p.2)
        | none => none := by
  obtain ⟨h1, h2, h3, h4⟩ := reconcile_valid_char login binds d hne hnd hvalid
  exact ⟨h1, h2, reconcile_nodup login binds d hdw, h4⟩

def c5Binds : List (String × BindUserConfig) :=
  [("alice", { principal := some (.inr ["p1"]) }),
   ("bob", { principal := some (.inr ["p2", "p3"]) })]

def c5Dir : DirState :=
  { dirExists := true, files := [("carol", "x\n"), ("alice", "old")] }

/-- Witness for C5: reconciling over a directory holding a stale `alice` and
an extraneous `carol` succeeds, rewrites `alice`, creates `bob`, and prunes
`carol`. -/
theorem C5_witness :
    (reconcile_bind_users ["alice", "bob"] c5Binds c5Dir).2 = none ∧
    lookup_file (reconcile_bind_users ["alice", "bob"] c5Binds c5Dir).1.files "bob"
      = some "p2\np3\n" ∧
    lookup_file (reconcile_bind_users ["alice", "bob"] c5Binds c5Dir).1.files "carol"
      = none := by
  have h := C5_reconciler_convergence ["alice", "bob"] c5Binds c5Dir
    (by decide) (by decide) (by decide) (by decide)
  refine ⟨h.1, ?_, ?_⟩
  · rw [h.2.2.2 "bob"]
    rfl
  · rw [h.2.2.2 "carol"]
    rfl

/-- C6: reconciling with an empty desired set is exactly the cleanup with no
valid users: on an existing directory it deletes every file and removes the
directory itself; on a missing directory it is a no-op. -/
theorem C6_empty_collapse (login : List String) (d : DirState) :
    reconcile_bind_users login [] d
      = (cleanup_authorized_principals_dir [] d, none) ∧
    (d.dirExists = true →
      cleanup_authorized_principals_dir [] d
        = { dirExists := false, files := [] }) ∧
    (d.dirExists = false → cleanup_authorized_principals_dir [] d = d) :=
  ⟨rfl, cleanup_collapse d, cleanup_not_exists [] d⟩

/-- Witness for C6: a two-file directory collapses entirely; a missing
directory is untouched. -/
theorem C6_witness :
    cleanup_authorized_principals_dir []
        { dirExists := true, files := [("alice", "p\n"), ("bob", "q\n")] }
      = { dirExists := false, files := [] } ∧
    cleanup_authorized_principals_dir [] { dirExists := false, files := [] }
      = { dirExists := false, files := [] } :=
  ⟨(C6_empty_collapse [] _).2.1 rfl, (C6_empty_collapse [] _).2.2 rfl⟩

/-- C7: running the bind-user reconciliation twice with the same desired
mapping (distinct bound users) leaves the directory in the identical final
state as running it once — including on the error paths, where the partially
written state is reproduced exactly. -/
theorem C7_reconciler_idempotent (login : List String)
    (binds : List (String × BindUserConfig)) (d : DirState)
    (hnd : (binds.map Prod.fst).Nodup) :
    (reconcile_bind_users login binds
        (reconcile_bind_users login binds d).1).1
      = (reconcile_bind_users login binds d).1 := by
  cases hE : (bind_user_loop login binds d []).2.2 with
  | some e =>
    have hfix := bind_loop_fixpoint login binds d [] hnd
    rw [reconcile_def_err login binds d e hE]
    have hE2 : (bind_user_loop login binds
        (bind_user_loop login binds d []).1 []).2.2 = some e := by
      rw [hfix, hE]
    rw [show ((bind_user_loop login binds d []).1, some e).1
          = (bind_user_loop login binds d []).1 from rfl]
    rw [reconcile_def_err login binds _ e hE2, hfix]
  | none =>
    have hvalid := bind_loop_ok_valid login binds d [] hE
    by_cases hne : binds = []
    · subst hne
      have h2 : ∀ dd : DirState, reconcile_bind_users login [] dd
          = (cleanup_authorized_principals_dir [] dd, none) := fun dd => rfl
      rw [h2 d]
      rw [show ((cleanup_authorized_principals_dir [] d, none)
            : DirState × Option PyError).1
          = cleanup_authorized_principals_dir [] d from rfl]
      rw [h2 (cleanup_authorized_principals_dir [] d)]
      by_cases hex : d.dirExists = true
      · rw [cleanup_collapse d hex]
        exact cleanup_not_exists [] { dirExists := false, files := [] } rfl
      · have hc := cleanup_not_exists [] d (by simpa using hex)
        rw [hc]
        exact hc
    · obtain ⟨hok2, hex2, hkeys2, hlook2⟩ :=
        reconcile_valid_char login binds d hne hnd hvalid
      have hlookdf : ∀ p ∈ binds,
          lookup_file (reconcile_bind_users login binds d).1.files p.1
            = some (render_principals p.2) := by
        intro p hp
        obtain ⟨u, cfg⟩ := p
        rw [hlook2 u, find?_key_of_mem_nodup' binds hnd hp]
      have hstep := bind_loop_stepwise_id login binds
        (reconcile_bind_users login binds d).1 [] hvalid hlookdf (fun _ => hex2)
      have hok3 : (bind_user_loop login binds
          (reconcile_bind_users login binds d).1 []).2.2 = none := by
        rw [hstep]
      rw [reconcile_def_ok login binds _ hok3]
      rw [show ∀ x : DirState × Option PyError, x.1 = x.1 from fun x => rfl]
      rw [hstep]
      apply cleanup_eq_self
      · exact hex2
      · obtain ⟨p0, hp0⟩ : ∃ p0, p0 ∈ binds := by
          cases binds with
          | nil => exact absurd rfl hne
          | cons a l => exact ⟨a, List.mem_cons_self _ _⟩
        have hm := mem_of_lookup_eq_some _ (hlookdf p0 hp0)
        intro hnil
        rw [hnil] at hm
        simp [file_names] at hm
      · intro p hp
        simp only [List.nil_append]
        exact hkeys2 p hp

def c7Binds : List (String × BindUserConfig) :=
  [("alice", { principal := some (.inl "q") }),
   ("mallory", { principal := none })]

def c7Dir : DirState :=
  { dirExists := true, files := [("carol", "x\n")] }

/-- Witness for C7: even on an error path (mallory declares no principal,
so the loop stops after writing alice's file) the second run reproduces the
same directory state. -/
theorem C7_witness :
    (reconcile_bind_users ["alice"] c7Binds
        (reconcile_bind_users ["alice"] c7Binds c7Dir).1).1
      = (reconcile_bind_users ["alice"] c7Binds c7Dir).1 :=
  C7_reconciler_idempotent ["alice"] c7Binds c7Dir (by decide)

/-- C8: when a trust anchor is configured and its named CA resolves to a
chain over the pool of all configured CA certificates, generate writes the
newline-joined encodings of exactly that chain to the trusted-user-CA-key
file; when no trust anchor is configured, generate clears the file and
collapses the principal directory via the empty cleanup. -/
theorem C8_trust_anchor_file (s : SshConfig) (fs : SshFs) :
    (∀ (t : TrustedCaCfg) (caName : String) (entry : CaEntry)
        (cert : Certificate) (chain : List Certificate),
      s.trusted_user_ca_key = some t →
      t.ca_certificate = some caName →
      lookup_ca s.pki_ca caName = some entry →
      entry.certificate = some cert →
      find_chain cert (ca_pool s.pki_ca) = some chain →
      ((generate (some s) fs).1).trustedCaFile
        = some (String.intercalate "\n" (chain.map Certificate.pem))) ∧
    (s.trusted_user_ca_key = none →
      ((generate (some s) fs).1).trustedCaFile = none ∧
      ((generate (some s) fs).1).principalsDir
        = cleanup_authorized_principals_dir [] fs.principalsDir) := by
  obtain ⟨hg1, hg2⟩ := generate_field_eq s fs
  obtain ⟨hk1, hk2, hk3⟩ := host_keys_step_fields fs
  constructor
  · intro t caName entry cert chain hT hca hent hcert hchain
    rw [hg1]
    exact handle_chain_trustedCaFile s _ hT hca hent hcert hchain
  · intro hT
    obtain ⟨hh1, hh2, hh3⟩ := handle_none_fields s (host_keys_step fs).1 hT
    exact ⟨by rw [hg1, hh1], by rw [hg2, hh2, hk2]⟩

def c8Cert : Certificate :=
  { subject := "anchor", issuer := "anchor", pem := "ANCHOR-PEM" }

def c8s : SshConfig :=
  { rekey := none
  , trusted_user_ca_key := some { ca_certificate := some "ca", bind_user := none }
  , pki_ca := [("ca", { certificate := some c8Cert })]
  , login_users := [], dynamic_protection := false, restart_required := false
  , vrf := some [] }

def c8sNone : SshConfig :=
  { rekey := none, trusted_user_ca_key := none, pki_ca := [], login_users := []
  , dynamic_protection := false, restart_required := false, vrf := some [] }

/-- Witness for C8: a self-signed anchor resolves to the one-element chain
and its encoding lands in the trust-anchor file; with no anchor the file is
cleared. -/
theorem C8_witness :
    ((generate (some c8s) fsDemo).1).trustedCaFile = some "ANCHOR-PEM" ∧
    ((generate (some c8sNone) fsDemo).1).trustedCaFile = none := by
  constructor
  · have h := (C8_trust_anchor_file c8s fsDemo).1
      { ca_certificate := some "ca", bind_user := none } "ca"
      { certificate := some c8Cert } c8Cert [c8Cert] rfl rfl rfl rfl rfl
    rw [h]
    rfl
  · exact ((C8_trust_anchor_file c8sNone fsDemo).2 rfl).1

/-- C9: a declared service whose snapshot lacks the vrf key makes apply
raise KeyError (after the earlier calls have been issued); the entry point
catches only ConfigError, so the pipeline ends with an uncaught KeyError —
while any snapshot carrying a vrf key completes apply without error. -/
theorem C9_missing_vrf_key (s : SshConfig) :
    (s.vrf = none →
      (Ssh.apply (some s)).2 = some PyError.keyError ∧
      ∀ fs, verify (some s) = .ok () →
        (generate (some s) fs).2.2 = none →
        (pipeline (some s) fs).2.2 = .uncaughtKeyError) ∧
    (∀ vrfs, s.vrf = some vrfs → (Ssh.apply (some s)).2 = none) := by
  constructor
  · intro h
    have happ := apply_vrf_none s h
    constructor
    · rw [happ]
    · intro fs hv hg
      rcases hG : generate (some s) fs with ⟨fs1, tr1, e1⟩
      rw [hG] at hg
      simp only at hg
      subst hg
      simp only [pipeline, hv, hG, happ]
  · intro vrfs h
    rw [apply_vrf_some s vrfs h]

def c9s : SshConfig :=
  { rekey := none, trusted_user_ca_key := none, pki_ca := [], login_users := []
  , dynamic_protection := false, restart_required := false, vrf := none }

def c9sOk : SshConfig :=
  { rekey := none, trusted_user_ca_key := none, pki_ca := [], login_users := []
  , dynamic_protection := false, restart_required := false, vrf := some ["mgmt"] }

/-- Witness for C9: a verifying, generating snapshot without a vrf key ends
in an uncaught KeyError; the same snapshot with a vrf key applies cleanly. -/
theorem C9_witness :
    (Ssh.apply (some c9s)).2 = some PyError.keyError ∧
    (pipeline (some c9s) fsDemo).2.2 = .uncaughtKeyError ∧
    (Ssh.apply (some c9sOk)).2 = none :=
  ⟨((C9_missing_vrf_key c9s).1 rfl).1,
   ((C9_missing_vrf_key c9s).1 rfl).2 fsDemo rfl rfl,
   (C9_missing_vrf_key c9sOk).2 ["mgmt"] rfl⟩

/-- C10: a bound user whose principal value is a single string is treated as
a one-element list: after a successful reconciliation that user's file holds
exactly that principal followed by one newline. -/
theorem C10_single_string_principal (login : List String)
    (binds : List (String × BindUserConfig)) (d : DirState) (u p : String)
    (hmem : (u, { principal := some (.inl p) }) ∈ binds)
    (hnd : (binds.map Prod.fst).Nodup)
    (hvalid : ∀ q ∈ binds, valid_bind login q) :
    lookup_file (reconcile_bind_users login binds d).1.files u
      = some (p ++ "\n") := by
  have hne : binds ≠ [] := by
    intro hb
    rw [hb] at hmem
    simp at hmem
  obtain ⟨h1, h2, h3, h4⟩ := reconcile_valid_char login binds d hne hnd hvalid
  rw [h4 u, find?_key_of_mem_nodup' binds hnd hmem]
  have hsing : String.intercalate "\n" [p] = p := by
    simp [String.intercalate, String.intercalate.go]
  simp [render_principals, principal_list, hsing]

def c10Binds : List (String × BindUserConfig) :=
  [("alice", { principal := some (.inl "solo") })]

/-- Witness for C10: a bare-string principal produces the file
contents solo plus one newline. -/
theorem C10_witness :
    lookup_file (reconcile_bind_users ["alice"] c10Binds
      { dirExists := false, files := [] }).1.files "alice" = some "solo\n" :=
  C10_single_string_principal ["alice"] c10Binds
    { dirExists := false, files := [] } "alice" "solo"
    (by decide) (by decide) (by decide)

end Ssh
